import Mathlib

/-!
Verification of the sanic-praetorian token and authorization engine
against its natural-language specification.

The definitions below are a shallow embedding of the Python source:

* `duration_from_string` embeds
  `sanic_praetorian/utilities.py: duration_from_string`, including the
  verbose regular expression of six optional unit groups and the two
  `ConfigurationError.require_condition` checks.
* `current_rolenames` embeds
  `sanic_praetorian/utilities.py: current_rolenames`.
* The app-context jwt-data helpers embed
  `add_jwt_data_to_app_context`, `app_context_has_jwt_data`,
  `get_jwt_data_from_app_context` and `remove_jwt_data_from_app_context`.
* `rolenames` embeds the `User.rolenames` property of
  `example/blacklist.py` and `example/register.py`.
* The TOTP verifier and the authenticate flow live in `base.py`, which is
  not part of the sources given; they are modelled from the specification
  (see the doc comments of `totp_step` and `authenticate`), with
  `cache_verify` of `tests/models.py` supplying the persistence step.
-/

namespace SanicPraetorian

/-! ### Character classes of the regex and Python string normalization -/

/-- The character class `\d` of the pattern (ASCII digits). -/
def isDigitC (c : Char) : Bool := decide ('0' ≤ c) && decide (c ≤ '9')

/-- The character class `[a-z]` of the pattern. -/
def isLowerC (c : Char) : Bool := decide ('a' ≤ c) && decide (c ≤ 'z')

/-- Embedding of Python `str.lower` on the ASCII range: `A`..`Z` map to
`a`..`z`, all other characters are unchanged. -/
def pyLower (c : Char) : Char :=
  if 65 ≤ c.toNat ∧ c.toNat ≤ 90 then Char.ofNat (c.toNat + 32) else c

/-- Embedding of the normalization prefix of `duration_from_string`:
`text.replace(' ', '')`, then `text.replace(',', '')`, then `text.lower()`. -/
def normalize (cs : List Char) : List Char :=
  (((cs.filter (fun c => c ≠ ' ')).filter (fun c => c ≠ ',')).map pyLower)

/-- Embedding of Python `int` applied to a captured digit string. -/
def digitsToNat (ds : List Char) : Nat :=
  ds.foldl (fun a c => 10 * a + (c.toNat - 48)) 0

/-! ### The regular expression

The pattern of `duration_from_string` is a sequence of six groups

  `((?P<years>\d+)y[a-z]*)? ((?P<months>\d+)mo[a-z]*)? ((?P<days>\d+)d[a-z]*)?`
  `((?P<hours>\d+)h[a-z]*)? ((?P<minutes>\d+)m[a-z]*)? ((?P<seconds>\d+)s[a-z]*)?`

matched with `re.match` (anchored at the start, free end).  Backtracking
never changes the greedy choice here: `\d+` is followed by a letter
literal, so giving back a digit cannot help; `[a-z]*` is followed either
by the end of the group or by a `\d+` of a later group, so giving back a
letter cannot help; and every group is optional, so a failed group is
skipped at the same position and no failure propagates backwards.  The
matcher below therefore matches each group greedily, in order, at the
current position. -/

/-- Strip an exact literal from the front of the input; `none` if the
literal is not there.  Embeds a literal of the regex. -/
def dropLit : List Char → List Char → Option (List Char)
  | [], cs => some cs
  | _ :: _, [] => none
  | l :: ls, c :: cs => if c = l then dropLit ls cs else none

/-- Match one group `(\d+)lit[a-z]*` at the front of the input, returning
the digit capture and the rest; `none` if the group does not match. -/
def matchGroup (lit : List Char) (cs : List Char) : Option (List Char × List Char) :=
  let ds := cs.takeWhile isDigitC
  if ds.isEmpty then none
  else
    match dropLit lit (cs.dropWhile isDigitC) with
    | none => none
    | some r2 => some (ds, r2.dropWhile isLowerC)

/-- One component of a concatenation pattern: a required group
`((\d+)lit[a-z]*)` or an optional group `((\d+)lit[a-z]*)?`. -/
inductive Comp where
  | req (lit : List Char)
  | opt (lit : List Char)

/-- Match one component: a required group fails when the group fails; an
optional group is skipped (capture `none`, position unchanged). -/
def matchComp : Comp → List Char → Option (Option (List Char) × List Char)
  | .req lit, cs => (matchGroup lit cs).map fun p => (some p.1, p.2)
  | .opt lit, cs =>
      match matchGroup lit cs with
      | some p => some (some p.1, p.2)
      | none => some (none, cs)

/-- Match a concatenation of components in order, returning the list of
captures and the remaining input. -/
def matchSeq : List Comp → List Char → Option (List (Option (List Char)) × List Char)
  | [], cs => some ([], cs)
  | comp :: rest, cs =>
      match matchComp comp cs with
      | none => none
      | some (cap, cs1) =>
          match matchSeq rest cs1 with
          | none => none
          | some (caps, cs2) => some (cap :: caps, cs2)

/-- The six optional unit groups of the pattern, in source order. -/
def durationPattern : List Comp :=
  [.opt ['y'], .opt ['m', 'o'], .opt ['d'], .opt ['h'], .opt ['m'], .opt ['s']]

/-- The named captures of `match.groupdict()`. -/
structure Parts where
  years : Option (List Char)
  months : Option (List Char)
  days : Option (List Char)
  hours : Option (List Char)
  minutes : Option (List Char)
  seconds : Option (List Char)
deriving DecidableEq

/-- Embedding of `re.match(pattern, text)` followed by `.groupdict()`:
`none` when the pattern does not match at the start of the text. -/
def reMatch (cs : List Char) : Option Parts :=
  match matchSeq durationPattern cs with
  | some ([y, mo, d, h, mi, s], _) => some ⟨y, mo, d, h, mi, s⟩
  | _ => none

/-- The cleaned dictionary `{k: int(v) for (k, v) in parts.items() if v}`:
only the unit fields whose capture is truthy (present and non-empty). -/
structure Clean where
  years : Option Nat
  months : Option Nat
  days : Option Nat
  hours : Option Nat
  minutes : Option Nat
  seconds : Option Nat
deriving DecidableEq

/-- Clean a single capture: dropped when absent or empty, converted with
`int` otherwise. -/
def cleanCap : Option (List Char) → Option Nat
  | none => none
  | some ds => if ds.isEmpty then none else some (digitsToNat ds)

/-- Clean all six captures. -/
def cleanParts (p : Parts) : Clean :=
  ⟨cleanCap p.years, cleanCap p.months, cleanCap p.days,
   cleanCap p.hours, cleanCap p.minutes, cleanCap p.seconds⟩

/-- Truth value of `not clean` in Python: the cleaned dictionary is empty. -/
def Clean.allNone (c : Clean) : Bool :=
  c.years.isNone && c.months.isNone && c.days.isNone &&
  c.hours.isNone && c.minutes.isNone && c.seconds.isNone

/-- The structured duration built by `pendulum.duration(**clean)`: missing
unit fields default to zero. -/
structure Duration where
  years : Nat
  months : Nat
  days : Nat
  hours : Nat
  minutes : Nat
  seconds : Nat
deriving DecidableEq

/-- `pendulum.duration(**clean)` on the cleaned dictionary. -/
def ofClean (c : Clean) : Duration :=
  ⟨c.years.getD 0, c.months.getD 0, c.days.getD 0,
   c.hours.getD 0, c.minutes.getD 0, c.seconds.getD 0⟩

/-- The core of `duration_from_string` after normalization: the regex
match, the check that the match object is not `None`, and the check that
the cleaned dictionary is non-empty.  `none` embeds the raised
`ConfigurationError`. -/
def matchClean (cs : List Char) : Option Clean :=
  match reMatch cs with
  | none => none
  | some parts =>
      let clean := cleanParts parts
      if clean.allNone then none else some clean

/-- `duration_from_string` down to the cleaned unit dictionary, on a
character list. -/
def durationCleanChars (cs : List Char) : Option Clean :=
  matchClean (normalize cs)

/-- `duration_from_string` down to the cleaned unit dictionary. -/
def duration_clean_from_string (s : String) : Option Clean :=
  durationCleanChars s.data

/-- Embedding of `duration_from_string` of
`sanic_praetorian/utilities.py`: `none` embeds the raised
`ConfigurationError`, `some` the returned `pendulum.duration`. -/
def duration_from_string (s : String) : Option Duration :=
  (duration_clean_from_string s).map ofClean

example : duration_from_string "1 Hour" = some ⟨0, 0, 0, 1, 0, 0⟩ := by decide
example : duration_from_string "7 days, 45 minutes" = some ⟨0, 0, 7, 0, 45, 0⟩ := by decide
example : duration_from_string "1y11d20m" = some ⟨1, 0, 11, 0, 20, 0⟩ := by decide
example : duration_from_string "1mo" = some ⟨0, 1, 0, 0, 0, 0⟩ := by decide
example : duration_from_string "1m" = some ⟨0, 0, 0, 0, 1, 0⟩ := by decide
example : duration_from_string "bogus" = none := by decide
example : duration_from_string "" = none := by decide
example : duration_from_string "1y7" = some ⟨1, 0, 0, 0, 0, 0⟩ := by decide

/-! ### Python string helpers: split and strip -/

/-- Helper for `pySplit`, carrying the current chunk in reverse. -/
def splitAux (sep : Char) : List Char → List Char → List (List Char)
  | [], acc => [acc.reverse]
  | c :: cs, acc =>
      if c = sep then acc.reverse :: splitAux sep cs [] else splitAux sep cs (c :: acc)

/-- Embedding of Python `str.split(sep)` with a one-character separator:
splits at every occurrence, keeps empty chunks, and yields the
one-element list of the empty string on empty input. -/
def pySplit (sep : Char) (cs : List Char) : List (List Char) :=
  splitAux sep cs []

/-- Whitespace as stripped by Python `str.strip()` (the ASCII range). -/
def isPySpace (c : Char) : Bool :=
  c = ' ' || c = '\t' || c = '\n' || c = '\x0d' || c = '\x0b' || c = '\x0c'

/-- Embedding of Python `str.strip()`: remove whitespace from both ends. -/
def pyStrip (cs : List Char) : List Char :=
  ((cs.dropWhile isPySpace).reverse.dropWhile isPySpace).reverse

example : pySplit ',' "".data = [[]] := by decide
example : pyStrip " a b ".data = "a b".data := by decide

/-! ### The rolenames property of the example user models

`example/blacklist.py` and `example/register.py` define
`User.rolenames = self.roles.split(",")` (with a try/except that a string
split never triggers), where the `roles` column defaults to the empty
string. -/

/-- Embedding of the `User.rolenames` property: split the stored `roles`
string on commas, with no trimming and no filtering of empty entries. -/
def rolenames (roles : String) : List String :=
  (pySplit ',' roles.data).map List.asString

/-- The default of the `roles` column in both example user models. -/
def rolesDefault : String := ""

example : rolenames "admin,operator" = ["admin", "operator"] := by decide

/-! ### The role claim and current_rolenames -/

/-- The jwt claim set as used by `current_rolenames`: only the presence
and value of the `rls` key matter (`none` embeds a claim set without the
key). -/
structure JwtClaims where
  rls : Option String
deriving DecidableEq

/-- The sentinel role set returned for a claim set without `rls`. -/
def sentinelRole : String := "non-empty-but-definitely-not-matching-subset"

/-- Embedding of `current_rolenames` of `sanic_praetorian/utilities.py`:
without an `rls` claim it returns the one-element sentinel set, otherwise
the set of comma-separated entries of the claim with each entry stripped
of surrounding whitespace. -/
def current_rolenames (j : JwtClaims) : Finset String :=
  match j.rls with
  | none => {sentinelRole}
  | some s => ((pySplit ',' s.data).map (fun e => (pyStrip e).asString)).toFinset

example : current_rolenames ⟨some "admin, operator"⟩ =
    ({"admin", "operator"} : Finset String) := by decide
example : current_rolenames ⟨none⟩ = ({sentinelRole} : Finset String) := by decide

/-- Modelled from the spec: the `roles_required` authorization policy of
section 4.7 (`decorators.py` is not among the given sources): all of the
needed roles must be present in the role set of the token. -/
def roles_required_ok (needed : Finset String) (j : JwtClaims) : Prop :=
  needed ⊆ current_rolenames j

/-- Modelled from the spec: the `roles_accepted` authorization policy of
section 4.7 (`decorators.py` is not among the given sources): at least
one of the accepted roles must be present in the role set of the token. -/
def roles_accepted_ok (rolesAny : Finset String) (j : JwtClaims) : Prop :=
  (rolesAny ∩ current_rolenames j).Nonempty

instance (needed : Finset String) (j : JwtClaims) :
    Decidable (roles_required_ok needed j) := by
  unfold roles_required_ok; infer_instance

instance (rolesAny : Finset String) (j : JwtClaims) :
    Decidable (roles_accepted_ok rolesAny j) := by
  unfold roles_accepted_ok; infer_instance

/-! ### The jwt data attached to the app context

The context is modelled by the presence and value of its `jwt_data`
attribute.  The data itself is opaque (any type `α`); the Python value
`None` is not a claim dictionary and is not modelled, so an attribute
that is present always holds actual data. -/

/-- The sanic app context, reduced to its `jwt_data` attribute. -/
structure Ctx (α : Type) where
  jwt_data : Option α
deriving DecidableEq

/-- Errors raised by the context helpers: `praetorianError` embeds
`PraetorianError.require_condition` failures, `attributeError` embeds the
`AttributeError` of an unguarded `del` of a missing attribute. -/
inductive CtxErr where
  | praetorianError
  | attributeError
deriving DecidableEq

/-- Embedding of `add_jwt_data_to_app_context`: `ctx.jwt_data = jwt_data`. -/
def add_jwt_data_to_app_context (ctx : Ctx α) (jwt_data : α) : Ctx α :=
  { ctx with jwt_data := some jwt_data }

/-- Embedding of `app_context_has_jwt_data`: `hasattr(ctx, "jwt_data")`. -/
def app_context_has_jwt_data (ctx : Ctx α) : Bool :=
  ctx.jwt_data.isSome

/-- Embedding of `get_jwt_data_from_app_context`: `getattr` with default
`None`, then a `require_condition` that the value is not `None`. -/
def get_jwt_data_from_app_context (ctx : Ctx α) : Except CtxErr α :=
  match ctx.jwt_data with
  | some d => .ok d
  | none => .error .praetorianError

/-- Embedding of `del ctx.jwt_data`: raises `AttributeError` when the
attribute is missing. -/
def delJwtAttr (ctx : Ctx α) : Except CtxErr (Ctx α) :=
  match ctx.jwt_data with
  | some _ => .ok { ctx with jwt_data := none }
  | none => .error .attributeError

/-- Embedding of `remove_jwt_data_from_app_context`: the `del` is guarded
by `app_context_has_jwt_data`. -/
def remove_jwt_data_from_app_context (ctx : Ctx α) : Except CtxErr (Ctx α) :=
  if app_context_has_jwt_data ctx then delJwtAttr ctx else .ok ctx

/-! ### The TOTP verifier -/

/-- Modelled from the spec: one `verify` of the TOTPVerifier of section
4.4 (`base.py` is not among the given sources).  `matched` is the counter
in the window whose expected code equals the submitted code, or `none`
when no counter in the window matches.  A match is accepted only when the
stored `last` counter is null or strictly smaller; on acceptance the
matched counter becomes the new stored counter, which is what
`cache_verify` of `tests/models.py` persists. -/
def totp_step (last : Option Nat) (matched : Option Nat) : Bool × Option Nat :=
  match matched with
  | none => (false, last)
  | some c =>
      match last with
      | none => (true, some c)
      | some l => if l < c then (true, some c) else (false, last)

/-- Run a sequence of verify operations from a stored counter state and
collect the counters that were accepted, threading the persisted state. -/
def totp_accepted : Option Nat → List (Option Nat) → List Nat
  | _, [] => []
  | last, m :: ms =>
      match totp_step last m with
      | (true, newLast) => m.getD 0 :: totp_accepted newLast ms
      | (false, newLast) => totp_accepted newLast ms

example : totp_accepted (some 5) [some 6, some 6, some 4, none, some 9] = [6, 9] := by decide
example : totp_accepted none [some 3, some 3] = [3] := by decide

/-! ### The authenticate flow -/

/-- A stored principal as far as `authenticate` consults it. -/
structure AuthUser where
  username : String
  password : String
deriving DecidableEq

/-- The externally visible error kinds of the authenticate flow. -/
inductive AuthErr where
  | authenticationError
  | totpRequired
deriving DecidableEq

/-- Lookup of a principal by identifier in the external user store. -/
def lookup_user : List AuthUser → String → Option AuthUser
  | [], _ => none
  | u :: us, name => if u.username = name then some u else lookup_user us name

/-- Modelled from the spec: the `authenticate` flow of section 4.7
(`base.py` is not among the given sources), restricted to the
username/password path: an unknown identifier and a failed password
verification both surface the same generic `AuthenticationError`. -/
def authenticate (store : List AuthUser) (username password : String) :
    Except AuthErr AuthUser :=
  match lookup_user store username with
  | none => .error .authenticationError
  | some u =>
      if u.password = password then .ok u else .error .authenticationError

example :
    authenticate [⟨"the_dude", "abides"⟩] "the_bro" "abides" =
      .error .authenticationError := by rfl
example :
    authenticate [⟨"the_dude", "abides"⟩] "the_dude" "is_undudelike" =
      .error .authenticationError := by rfl
example :
    authenticate [⟨"the_dude", "abides"⟩] "the_dude" "abides" =
      .ok ⟨"the_dude", "abides"⟩ := by rfl

/-! ### Helper lemmas about the regex matcher -/

theorem isEmpty_false_of_ne_nil {ds : List Char} (h : ds ≠ []) : ds.isEmpty = false := by
  cases ds with
  | nil => exact absurd rfl h
  | cons x xs => rfl

theorem takeWhile_digits_append (ds r : List Char)
    (hds : ∀ d ∈ ds, isDigitC d = true)
    (hr : ∀ c t, r = c :: t → isDigitC c = false) :
    (ds ++ r).takeWhile isDigitC = ds ∧ (ds ++ r).dropWhile isDigitC = r := by
  induction ds with
  | nil =>
      cases r with
      | nil => exact ⟨rfl, rfl⟩
      | cons c t =>
          have hc := hr c t rfl
          simp [List.takeWhile_cons, List.dropWhile_cons, hc]
  | cons d ds ih =>
      have hd : isDigitC d = true := hds d (List.mem_cons_self ..)
      have htl := ih (fun x hx => hds x (List.mem_cons_of_mem _ hx))
      simp [List.takeWhile_cons, List.dropWhile_cons, hd, htl.1, htl.2]

theorem dropWhile_all (p : Char → Bool) :
    ∀ ls : List Char, (∀ c ∈ ls, p c = true) → ls.dropWhile p = [] := by
  intro ls
  induction ls with
  | nil => intro _; rfl
  | cons c t ih =>
      intro h
      have hc := h c (List.mem_cons_self ..)
      simp [List.dropWhile_cons, hc, ih (fun x hx => h x (List.mem_cons_of_mem _ hx))]

theorem matchGroup_nil (lit : List Char) : matchGroup lit [] = none := rfl

theorem matchGroup_head_nondigit (lit : List Char) (c : Char) (rest : List Char)
    (hc : isDigitC c = false) : matchGroup lit (c :: rest) = none := by
  simp [matchGroup, List.takeWhile_cons, hc]

theorem matchGroup_digits_append (lit ds r : List Char) (hne : ds ≠ [])
    (hds : ∀ d ∈ ds, isDigitC d = true)
    (hr : ∀ c t, r = c :: t → isDigitC c = false) :
    matchGroup lit (ds ++ r) =
      match dropLit lit r with
      | none => none
      | some r2 => some (ds, r2.dropWhile isLowerC) := by
  obtain ⟨ht, hd⟩ := takeWhile_digits_append ds r hds hr
  simp [matchGroup, ht, hd, isEmpty_false_of_ne_nil hne]

theorem matchComp_opt_isSome (lit cs : List Char) :
    (matchComp (Comp.opt lit) cs).isSome := by
  unfold matchComp
  cases h : matchGroup lit cs <;> simp [h]

theorem matchSeq_opts_isSome :
    ∀ comps : List Comp, (∀ c ∈ comps, ∃ lit, c = Comp.opt lit) →
      ∀ cs : List Char, (matchSeq comps cs).isSome := by
  intro comps
  induction comps with
  | nil => intro _ cs; simp [matchSeq]
  | cons comp rest ih =>
      intro h cs
      obtain ⟨lit, rfl⟩ := h comp (List.mem_cons_self ..)
      have hrest := fun c hc => h c (List.mem_cons_of_mem _ hc)
      cases hm : matchComp (Comp.opt lit) cs with
      | none =>
          have := matchComp_opt_isSome lit cs
          rw [hm] at this
          simp at this
      | some p =>
          obtain ⟨cap, cs1⟩ := p
          have h2 := ih hrest cs1
          cases hs : matchSeq rest cs1 with
          | none => rw [hs] at h2; simp at h2
          | some q => simp [matchSeq, hm, hs]

theorem matchSeq_length :
    ∀ (comps : List Comp) (cs : List Char) (caps : List (Option (List Char)))
      (rest : List Char),
      matchSeq comps cs = some (caps, rest) → caps.length = comps.length := by
  intro comps
  induction comps with
  | nil =>
      intro cs caps rest h
      simp [matchSeq] at h
      simp [h.1]
  | cons comp tl ih =>
      intro cs caps rest h
      unfold matchSeq at h
      cases hm : matchComp comp cs with
      | none => rw [hm] at h; simp at h
      | some p =>
          obtain ⟨cap, cs1⟩ := p
          rw [hm] at h
          cases hs : matchSeq tl cs1 with
          | none => simp [hs] at h
          | some q =>
              obtain ⟨caps1, cs2⟩ := q
              simp [hs] at h
              obtain ⟨h1, _⟩ := h
              subst h1
              simp [ih cs1 caps1 cs2 hs]

theorem durationPattern_all_opt :
    ∀ c ∈ durationPattern, ∃ lit, c = Comp.opt lit := by
  intro c hc
  simp [durationPattern] at hc
  rcases hc with rfl | rfl | rfl | rfl | rfl | rfl <;> exact ⟨_, rfl⟩

theorem reMatch_isSome (cs : List Char) : (reMatch cs).isSome := by
  have h := matchSeq_opts_isSome durationPattern durationPattern_all_opt cs
  cases hp : matchSeq durationPattern cs with
  | none => rw [hp] at h; simp at h
  | some p =>
      obtain ⟨caps, rest⟩ := p
      have hl := matchSeq_length durationPattern cs caps rest hp
      simp [durationPattern] at hl
      rcases caps with _ | ⟨c1, _ | ⟨c2, _ | ⟨c3, _ | ⟨c4, _ | ⟨c5, _ | ⟨c6, _ | ⟨c7, t⟩⟩⟩⟩⟩⟩⟩ <;>
        simp at hl
      simp [reMatch, hp]

theorem cleanCap_some (ds : List Char) (h : ds ≠ []) :
    cleanCap (some ds) = some (digitsToNat ds) := by
  simp [cleanCap, isEmpty_false_of_ne_nil h]

theorem matchSeq_months (ds ls : List Char) (hne : ds ≠ [])
    (hds : ∀ d ∈ ds, isDigitC d = true) (hls : ∀ c ∈ ls, isLowerC c = true) :
    matchSeq durationPattern (ds ++ 'm' :: 'o' :: ls) =
      some ([none, some ds, none, none, none, none], []) := by
  have hr : ∀ x t, ('m' :: 'o' :: ls) = x :: t → isDigitC x = false := by
    intro x t h; cases h; decide
  have h1 : matchGroup ['y'] (ds ++ 'm' :: 'o' :: ls) = none := by
    rw [matchGroup_digits_append _ _ _ hne hds hr]; rfl
  have h2 : matchGroup ['m', 'o'] (ds ++ 'm' :: 'o' :: ls) = some (ds, []) := by
    rw [matchGroup_digits_append _ _ _ hne hds hr]
    have hd2 : dropLit ['m', 'o'] ('m' :: 'o' :: ls) = some ls := rfl
    simp [hd2, dropWhile_all isLowerC ls hls]
  simp [durationPattern, matchSeq, matchComp, h1, h2, matchGroup_nil]

theorem matchSeq_minutes (ds ls : List Char) (hne : ds ≠ [])
    (hds : ∀ d ∈ ds, isDigitC d = true) (hls : ∀ c ∈ ls, isLowerC c = true)
    (ho : ∀ x t, ls = x :: t → x ≠ 'o') :
    matchSeq durationPattern (ds ++ 'm' :: ls) =
      some ([none, none, none, none, some ds, none], []) := by
  have hr : ∀ x t, ('m' :: ls) = x :: t → isDigitC x = false := by
    intro x t h; cases h; decide
  have hdo : dropLit ['o'] ls = none := by
    cases ls with
    | nil => rfl
    | cons x t => simp [dropLit, ho x t rfl]
  have h1 : matchGroup ['y'] (ds ++ 'm' :: ls) = none := by
    rw [matchGroup_digits_append _ _ _ hne hds hr]; rfl
  have h2 : matchGroup ['m', 'o'] (ds ++ 'm' :: ls) = none := by
    rw [matchGroup_digits_append _ _ _ hne hds hr]
    have hd2 : dropLit ['m', 'o'] ('m' :: ls) = dropLit ['o'] ls := rfl
    simp [hd2, hdo]
  have h3 : matchGroup ['d'] (ds ++ 'm' :: ls) = none := by
    rw [matchGroup_digits_append _ _ _ hne hds hr]; rfl
  have h4 : matchGroup ['h'] (ds ++ 'm' :: ls) = none := by
    rw [matchGroup_digits_append _ _ _ hne hds hr]; rfl
  have h5 : matchGroup ['m'] (ds ++ 'm' :: ls) = some (ds, []) := by
    rw [matchGroup_digits_append _ _ _ hne hds hr]
    have hd5 : dropLit ['m'] ('m' :: ls) = some ls := rfl
    simp [hd5, dropWhile_all isLowerC ls hls]
  simp [durationPattern, matchSeq, matchComp, h1, h2, h3, h4, h5, matchGroup_nil]

theorem matchSeq_years_trailing (ds : List Char) (c : Char) (rest : List Char)
    (hne : ds ≠ []) (hds : ∀ d ∈ ds, isDigitC d = true)
    (hcd : isDigitC c = false) (hcl : isLowerC c = false) :
    matchSeq durationPattern (ds ++ 'y' :: c :: rest) =
      some ([some ds, none, none, none, none, none], c :: rest) := by
  have hr : ∀ x t, ('y' :: c :: rest) = x :: t → isDigitC x = false := by
    intro x t h; cases h; decide
  have h1 : matchGroup ['y'] (ds ++ 'y' :: c :: rest) = some (ds, c :: rest) := by
    rw [matchGroup_digits_append _ _ _ hne hds hr]
    have hd1 : dropLit ['y'] ('y' :: c :: rest) = some (c :: rest) := rfl
    simp [hd1, List.dropWhile_cons, hcl]
  have hrest : ∀ lit, matchGroup lit (c :: rest) = none :=
    fun lit => matchGroup_head_nondigit lit c rest hcd
  simp [durationPattern, matchSeq, matchComp, h1, hrest]

theorem matchClean_months (ds ls : List Char) (hne : ds ≠ [])
    (hds : ∀ d ∈ ds, isDigitC d = true) (hls : ∀ c ∈ ls, isLowerC c = true) :
    matchClean (ds ++ 'm' :: 'o' :: ls) =
      some ⟨none, some (digitsToNat ds), none, none, none, none⟩ := by
  simp [matchClean, reMatch, matchSeq_months ds ls hne hds hls, cleanParts,
        cleanCap_some ds hne, cleanCap, Clean.allNone, hne]

theorem matchClean_minutes (ds ls : List Char) (hne : ds ≠ [])
    (hds : ∀ d ∈ ds, isDigitC d = true) (hls : ∀ c ∈ ls, isLowerC c = true)
    (ho : ∀ x t, ls = x :: t → x ≠ 'o') :
    matchClean (ds ++ 'm' :: ls) =
      some ⟨none, none, none, none, some (digitsToNat ds), none⟩ := by
  simp [matchClean, reMatch, matchSeq_minutes ds ls hne hds hls ho, cleanParts,
        cleanCap_some ds hne, cleanCap, Clean.allNone, hne]

theorem matchClean_years_trailing (ds : List Char) (c : Char) (rest : List Char)
    (hne : ds ≠ []) (hds : ∀ d ∈ ds, isDigitC d = true)
    (hcd : isDigitC c = false) (hcl : isLowerC c = false) :
    matchClean (ds ++ 'y' :: c :: rest) =
      some ⟨some (digitsToNat ds), none, none, none, none, none⟩ := by
  simp [matchClean, reMatch, matchSeq_years_trailing ds c rest hne hds hcd hcl,
        cleanParts, cleanCap_some ds hne, cleanCap, Clean.allNone, hne]

theorem totp_accepted_gt :
    ∀ (ms : List (Option Nat)) (last : Option Nat) (c : Nat),
      c ∈ totp_accepted last ms → ∀ l, last = some l → l < c := by
  intro ms
  induction ms with
  | nil => intro last c hc; simp [totp_accepted] at hc
  | cons m ms ih =>
      intro last c hc l hl
      subst hl
      cases m with
      | none =>
          simp [totp_accepted, totp_step] at hc
          exact ih _ c hc l rfl
      | some cc =>
          by_cases h : l < cc
          · simp [totp_accepted, totp_step, h] at hc
            rcases hc with rfl | hc
            · exact h
            · exact lt_trans h (ih _ c hc cc rfl)
          · simp [totp_accepted, totp_step, h] at hc
            exact ih _ c hc l rfl

/-! ### The claims -/

/-- Claim C1, counterexample: for a token claim set without the `rls`
key, the role set returned by `current_rolenames` is not the empty set
(the code returns a one-element sentinel set instead). -/
theorem current_rolenames_missing_not_empty :
    current_rolenames ⟨none⟩ ≠ (∅ : Finset String) := by decide

/-- Claim C1, amended: for a token claim set without the `rls` key,
`current_rolenames` returns the one-element sentinel role set; since the
sentinel matches no real role name, the required policy succeeds on such
a token exactly when the requirement list is empty, and the accepted
policy never succeeds on such a token, not even for an empty requirement
list. -/
theorem current_rolenames_missing_sentinel :
    current_rolenames ⟨none⟩ = ({sentinelRole} : Finset String) ∧
    (∀ needed : Finset String, sentinelRole ∉ needed →
        (roles_required_ok needed ⟨none⟩ ↔ needed = ∅)) ∧
    (∀ rolesAny : Finset String, sentinelRole ∉ rolesAny →
        ¬ roles_accepted_ok rolesAny ⟨none⟩) := by
  refine ⟨rfl, ?_, ?_⟩
  · intro needed hs
    unfold roles_required_ok
    have hcr : current_rolenames ⟨none⟩ = ({sentinelRole} : Finset String) := rfl
    rw [hcr]
    constructor
    · intro hsub
      rcases Finset.subset_singleton_iff.mp hsub with h | h
      · exact h
      · rw [h] at hs
        exact absurd (Finset.mem_singleton_self sentinelRole) hs
    · intro h
      rw [h]
      exact Finset.empty_subset _
  · intro rolesAny hs hacc
    unfold roles_accepted_ok at hacc
    obtain ⟨x, hx⟩ := hacc
    rw [Finset.mem_inter] at hx
    have hx2 := hx.2
    have hcr : current_rolenames ⟨none⟩ = ({sentinelRole} : Finset String) := rfl
    rw [hcr, Finset.mem_singleton] at hx2
    subst hx2
    exact hs hx.1

/-- Witness for the amended claim C1 at concrete requirement lists. -/
theorem current_rolenames_missing_sentinel_witness :
    (roles_required_ok ∅ ⟨none⟩ ↔ (∅ : Finset String) = ∅) ∧
    ¬ roles_accepted_ok {"admin"} ⟨none⟩ :=
  ⟨current_rolenames_missing_sentinel.2.1 ∅ (by decide),
   current_rolenames_missing_sentinel.2.2 {"admin"} (by decide)⟩

/-- Claim C2: a TOTP verify accepts exactly when the matched counter is
strictly greater than the stored counter (or the stored counter is
null); on acceptance the matched counter is persisted as the new stored
counter; and once a counter has been accepted, no later verify in any
sequence of verifies accepts a counter less than or equal to it. -/
theorem totp_replay_protection :
    (∀ (last : Option Nat) (c : Nat),
        (totp_step last (some c)).1 = true ↔
          (last = none ∨ ∃ l, last = some l ∧ l < c)) ∧
    (∀ (last m : Option Nat) (b : Bool) (l2 : Option Nat),
        totp_step last m = (b, l2) → b = true → ∃ c, m = some c ∧ l2 = some c) ∧
    (∀ (C : Nat) (ms : List (Option Nat)) (c : Nat),
        c ∈ totp_accepted (some C) ms → C < c) := by
  refine ⟨?_, ?_, ?_⟩
  · intro last c
    cases last with
    | none => simp [totp_step]
    | some l => by_cases h : l < c <;> simp [totp_step, h]
  · intro last m b l2 hstep hb
    subst hb
    cases m with
    | none => simp [totp_step] at hstep
    | some c =>
        cases last with
        | none =>
            simp [totp_step] at hstep
            exact ⟨c, rfl, hstep.symm⟩
        | some l =>
            by_cases h : l < c
            · simp [totp_step, h] at hstep
              exact ⟨c, rfl, hstep.symm⟩
            · simp [totp_step, h] at hstep
  · intro C ms c hc
    exact totp_accepted_gt ms (some C) c hc C rfl

/-- Witness for claim C2: after counter 5 was accepted, the code for
counter 6 is accepted and 6 is strictly above 5. -/
theorem totp_replay_protection_witness :
    6 ∈ totp_accepted (some 5) [some 6] ∧ 5 < 6 :=
  ⟨by decide, totp_replay_protection.2.2 5 [some 6] 6 (by decide)⟩

/-- Claim C3: an authenticate call with an unknown identifier and an
authenticate call with a known identifier but a wrong password both
surface the same generic AuthenticationError; the two failures are
indistinguishable to the caller. -/
theorem authenticate_uniform_error :
    ∀ (store : List AuthUser) (id1 p1 id2 p2 : String),
      lookup_user store id1 = none →
      (∃ u, lookup_user store id2 = some u ∧ u.password ≠ p2) →
      authenticate store id1 p1 = .error .authenticationError ∧
      authenticate store id2 p2 = .error .authenticationError ∧
      authenticate store id1 p1 = authenticate store id2 p2 := by
  intro store id1 p1 id2 p2 h1 h2
  obtain ⟨u, hu, hp⟩ := h2
  have ha1 : authenticate store id1 p1 = .error .authenticationError := by
    simp [authenticate, h1]
  have ha2 : authenticate store id2 p2 = .error .authenticationError := by
    simp [authenticate, hu, hp]
  exact ⟨ha1, ha2, ha1.trans ha2.symm⟩

/-- Witness for claim C3 at the store of the test suite. -/
theorem authenticate_uniform_error_witness :
    authenticate [⟨"the_dude", "abides"⟩] "the_bro" "abides" =
        .error .authenticationError ∧
    authenticate [⟨"the_dude", "abides"⟩] "the_dude" "is_undudelike" =
        .error .authenticationError :=
  ⟨(authenticate_uniform_error [⟨"the_dude", "abides"⟩] "the_bro" "abides"
      "the_dude" "is_undudelike" (by rfl)
      ⟨⟨"the_dude", "abides"⟩, by rfl, by decide⟩).1,
   (authenticate_uniform_error [⟨"the_dude", "abides"⟩] "the_bro" "abides"
      "the_dude" "is_undudelike" (by rfl)
      ⟨⟨"the_dude", "abides"⟩, by rfl, by decide⟩).2.1⟩

/-- Claim C4, counterexample: the input `1y7` consists of a valid years
group followed by the unparsable fragment `7`, yet parsing succeeds with
one year instead of rejecting the input. -/
theorem duration_trailing_fragment_accepted :
    duration_from_string "1y7" = some ⟨1, 0, 0, 0, 0, 0⟩ := by decide

/-- Claim C4, amended: parsing fails exactly when no unit group captures
a value at the start of the normalized text; a trailing fragment that
matches no unit group is silently ignored rather than rejected. -/
theorem duration_trailing_fragment_ignored :
    (∀ (ds : List Char) (c : Char) (rest : List Char),
        ds ≠ [] → (∀ d ∈ ds, isDigitC d = true) →
        isDigitC c = false → isLowerC c = false →
        matchClean (ds ++ 'y' :: c :: rest) =
          some ⟨some (digitsToNat ds), none, none, none, none, none⟩) ∧
    duration_from_string "2y!junk" = some ⟨2, 0, 0, 0, 0, 0⟩ :=
  ⟨fun ds c rest hne hds hcd hcl =>
      matchClean_years_trailing ds c rest hne hds hcd hcl,
   by decide⟩

/-- Witness for the amended claim C4 at a concrete input. -/
theorem duration_trailing_fragment_ignored_witness :
    matchClean (['1'] ++ 'y' :: '!' :: ['7']) =
      some ⟨some (digitsToNat ['1']), none, none, none, none, none⟩ :=
  duration_trailing_fragment_ignored.1 ['1'] '!' ['7']
    (by decide) (by decide) (by decide) (by decide)

/-- Claim C5: parsing normalizes by removing spaces and commas and
lower-casing, then matches the unit groups in one pass in fixed order;
a number followed by `mo` and optional further letters is assigned to
months, a number followed by `m` without `o` is assigned to minutes, and
unit groups that do not match are omitted from the cleaned result. -/
theorem duration_parse_normalization_order :
    (∀ a b : List Char,
        durationCleanChars (a ++ ' ' :: b) = durationCleanChars (a ++ b)) ∧
    (∀ a b : List Char,
        durationCleanChars (a ++ ',' :: b) = durationCleanChars (a ++ b)) ∧
    duration_from_string "1 Hour, 45 MINUTES" = some ⟨0, 0, 0, 1, 45, 0⟩ ∧
    (∀ ds ls : List Char, ds ≠ [] → (∀ d ∈ ds, isDigitC d = true) →
        (∀ c ∈ ls, isLowerC c = true) →
        matchClean (ds ++ 'm' :: 'o' :: ls) =
          some ⟨none, some (digitsToNat ds), none, none, none, none⟩) ∧
    (∀ ds ls : List Char, ds ≠ [] → (∀ d ∈ ds, isDigitC d = true) →
        (∀ c ∈ ls, isLowerC c = true) → (∀ x t, ls = x :: t → x ≠ 'o') →
        matchClean (ds ++ 'm' :: ls) =
          some ⟨none, none, none, none, some (digitsToNat ds), none⟩) := by
  refine ⟨?_, ?_, by decide, matchClean_months, matchClean_minutes⟩
  · intro a b
    have hn : normalize (a ++ ' ' :: b) = normalize (a ++ b) := by
      simp [normalize, List.filter_append, List.filter_cons]
    simp [durationCleanChars, hn]
  · intro a b
    have hn : normalize (a ++ ',' :: b) = normalize (a ++ b) := by
      simp [normalize, List.filter_append, List.filter_cons]
    simp [durationCleanChars, hn]

/-- Witness for claim C5 at concrete inputs. -/
theorem duration_parse_normalization_order_witness :
    durationCleanChars (['1', 'h'] ++ ' ' :: ['2', 'm']) =
      durationCleanChars (['1', 'h'] ++ ['2', 'm']) ∧
    matchClean (['1', '2'] ++ 'm' :: 'o' :: ['n', 't', 'h', 's']) =
      some ⟨none, some (digitsToNat ['1', '2']), none, none, none, none⟩ ∧
    matchClean (['4', '5'] ++ 'm' :: ['i', 'n', 'u', 't', 'e', 's']) =
      some ⟨none, none, none, none, some (digitsToNat ['4', '5']), none⟩ :=
  ⟨duration_parse_normalization_order.1 ['1', 'h'] ['2', 'm'],
   duration_parse_normalization_order.2.2.2.1 ['1', '2'] ['n', 't', 'h', 's']
     (by decide) (by decide) (by decide),
   duration_parse_normalization_order.2.2.2.2 ['4', '5'] ['i', 'n', 'u', 't', 'e', 's']
     (by decide) (by decide) (by decide)
     (by intro x t h; cases h; decide)⟩

/-- Claim C6: for a non-empty input, a successful parse always has at
least one unit field present in the cleaned result, and an input where no
unit group captures a value yields an error, never a zero duration. -/
theorem duration_parse_nonzero :
    ∀ s : String, s ≠ "" →
      (∀ c, duration_clean_from_string s = some c → c.allNone = false) ∧
      (∀ p, reMatch (normalize s.data) = some p → (cleanParts p).allNone = true →
          duration_clean_from_string s = none) := by
  intro s hs
  constructor
  · intro c hc
    unfold duration_clean_from_string durationCleanChars matchClean at hc
    cases hm : reMatch (normalize s.data) with
    | none => rw [hm] at hc; simp at hc
    | some p =>
        rw [hm] at hc
        cases ha : (cleanParts p).allNone with
        | true => simp [ha] at hc
        | false =>
            simp [ha] at hc
            rw [← hc]
            exact ha
  · intro p hp ha
    unfold duration_clean_from_string durationCleanChars matchClean
    rw [hp]
    simp [ha]

/-- Witness for claim C6 at concrete inputs. -/
theorem duration_parse_nonzero_witness :
    Clean.allNone ⟨none, none, none, some 1, none, none⟩ = false ∧
    duration_clean_from_string "x" = none :=
  ⟨(duration_parse_nonzero "1h" (by decide)).1 ⟨none, none, none, some 1, none, none⟩
      (by decide),
   (duration_parse_nonzero "x" (by decide)).2 ⟨none, none, none, none, none, none⟩
      (by decide) (by decide)⟩

/-- Claim C7: for a claim set whose `rls` value is a comma-joined
string, the recovered role set is exactly the set of the comma-separated
entries with surrounding whitespace trimmed from each entry. -/
theorem current_rolenames_comma_split :
    current_rolenames ⟨some "admin, operator"⟩ =
        ({"admin", "operator"} : Finset String) ∧
    (∀ s r : String,
        r ∈ current_rolenames ⟨some s⟩ ↔
          ∃ e ∈ pySplit ',' s.data, (pyStrip e).asString = r) := by
  refine ⟨by decide, ?_⟩
  intro s r
  simp [current_rolenames]

/-- Claim C8: the regular-expression match of `duration_from_string`
succeeds on every input (every unit group is optional), so the first
failure check is unreachable, and parse failure is decided solely by
whether any group captured a value. -/
theorem duration_regex_total :
    (∀ cs : List Char, (reMatch cs).isSome = true) ∧
    (∀ (s : String) (p : Parts), reMatch (normalize s.data) = some p →
        (duration_clean_from_string s = none ↔ (cleanParts p).allNone = true)) := by
  refine ⟨fun cs => reMatch_isSome cs, ?_⟩
  intro s p hp
  unfold duration_clean_from_string durationCleanChars matchClean
  rw [hp]
  cases ha : (cleanParts p).allNone with
  | true => simp [ha]
  | false => simp [ha]

/-- Witness for claim C8 at a concrete input. -/
theorem duration_regex_total_witness :
    (reMatch "xyz".data).isSome = true ∧
    (duration_clean_from_string "xyz" = none ↔
        (cleanParts ⟨none, none, none, none, none, none⟩).allNone = true) :=
  ⟨duration_regex_total.1 "xyz".data,
   duration_regex_total.2 "xyz" ⟨none, none, none, none, none, none⟩ (by decide)⟩

/-- Claim C9: a user record whose roles field is the empty string (the
model default) has a rolenames list equal to the one-element list of the
empty string, not the empty list. -/
theorem rolenames_empty_string :
    rolenames rolesDefault = [""] ∧ rolenames rolesDefault ≠ [] :=
  ⟨by decide, by decide⟩

/-- Claim C10: adding jwt data to the app context and reading it back
returns exactly the added data; removal never raises, even when no jwt
data is attached, and afterwards the context has no jwt data, reading
fails with PraetorianError, and a second removal is a no-op. -/
theorem jwt_data_context_roundtrip {α : Type} :
    ∀ (ctx : Ctx α) (d : α),
      get_jwt_data_from_app_context (add_jwt_data_to_app_context ctx d) = .ok d ∧
      ∃ ctx2, remove_jwt_data_from_app_context ctx = .ok ctx2 ∧
        app_context_has_jwt_data ctx2 = false ∧
        get_jwt_data_from_app_context ctx2 = .error .praetorianError ∧
        remove_jwt_data_from_app_context ctx2 = .ok ctx2 := by
  intro ctx d
  refine ⟨rfl, ?_⟩
  cases hc : ctx.jwt_data with
  | none =>
      refine ⟨ctx, ?_, ?_, ?_, ?_⟩ <;>
        simp [remove_jwt_data_from_app_context, app_context_has_jwt_data,
              get_jwt_data_from_app_context, hc]
  | some x =>
      refine ⟨⟨none⟩, ?_, ?_, ?_, ?_⟩ <;>
        simp [remove_jwt_data_from_app_context, app_context_has_jwt_data,
              delJwtAttr, get_jwt_data_from_app_context, hc]

end SanicPraetorian
